import Mathlib

/-!
Verification development for the batch job-scoring core of `app.py`
(AI_Job_Finder).  The Python source is shallowly embedded: text is
`List Char` (Python `str`, ASCII subset for the whitespace/lower-casing
helpers, which is all the code's own literals use), CPython `int`s are
`Int`, dictionaries with known keys become structures whose absent keys
are the empty string (Python `dict.get` with falsy defaults), and the
external text-generation collaborator (`client.chat.completions.create`)
is abstracted as a function `Nat → Attempt` giving the outcome of each
attempt — the embedded retry loop consumes it exactly as the source's
`for attempt in range(max_gpt_retries)` loop consumes the live client.
PDF extraction and the job-search HTTP client are external collaborators
and are not embedded; their outputs appear as plain inputs.
-/

set_option autoImplicit false

abbrev Str := List Char

/-- Character list of a Lean string literal (used to transcribe the
Python source's string literals). -/
def strL (s : String) : Str := s.data

/-- Python `str.strip()` whitespace class, ASCII part
(space, tab, newline, carriage return, vertical tab, form feed). -/
def isPySpace (c : Char) : Bool :=
  c = ' ' || c = '\t' || c = '\n' || c = '\r' || c = '\x0b' || c = '\x0c'

/-- Python `str.strip()`: drop leading and trailing whitespace. -/
def pyStrip (s : Str) : Str :=
  ((s.dropWhile isPySpace).reverse.dropWhile isPySpace).reverse

/-- `compress_text(text, max_chars)` from `app.py`: empty input yields
the empty string; otherwise strip, and if the stripped text is longer
than `max_chars`, keep the first `max_chars` characters and append
`"..."`. -/
def compress_text (text : Str) (max_chars : Nat) : Str :=
  if text = [] then []
  else
    let t := pyStrip text
    if max_chars < t.length then t.take max_chars ++ strL "..."
    else t

/-- ASCII part of Python `str.lower()` (the classifier patterns and the
`"score"` keyword are ASCII). -/
def lowerAscii (c : Char) : Char :=
  if 'A' ≤ c ∧ c ≤ 'Z' then Char.ofNat (c.toNat + 32) else c

/-- Python `pat in s` substring test for strings. -/
def containsSub (pat : Str) : Str → Bool
  | [] => decide (pat = [])
  | c :: rest => decide (pat <+: (c :: rest)) || containsSub pat rest

/-- The rate-limit classifier of `score_all_jobs_against_resume`:
`"rate limit" in str(e).lower() or "rate_limit_exceeded" in str(e).lower()`. -/
def isRateLimitMsg (e : Str) : Bool :=
  containsSub (strL "rate limit") (e.map lowerAscii) ||
    containsSub (strL "rate_limit_exceeded") (e.map lowerAscii)

/-- A job dictionary from the JSearch collaborator, restricted to the
keys `app.py` reads.  A key that is missing or `None` is modelled as the
empty string (both are falsy in the source's `or`-chains, and `get` with
default `""` yields the empty string). -/
structure Job where
  job_title : Str
  employer_name : Str
  job_city : Str
  job_country : Str
  job_description : Str
  job_apply_link : Str
  job_google_link : Str
deriving DecidableEq

/-- One parsed per-job result dictionary `{"score": ..., "analysis_text": ...}`. -/
structure ScoreRecord where
  score : Int
  analysis_text : Str
deriving DecidableEq

/-- Python `a or b` on strings: the empty string is falsy. -/
def pyOr (a b : Str) : Str := if a = [] then b else a

/-- Helper for `splitlines`: accumulate the current line (reversed). -/
def splitlinesGo : Str → Str → List Str
  | [], acc => if acc = [] then [] else [acc.reverse]
  | '\r' :: '\n' :: rest, acc => acc.reverse :: splitlinesGo rest []
  | '\n' :: rest, acc => acc.reverse :: splitlinesGo rest []
  | '\r' :: rest, acc => acc.reverse :: splitlinesGo rest []
  | c :: rest, acc => splitlinesGo rest (c :: acc)

/-- Python `str.splitlines()` on the ASCII line boundaries
`\n`, `\r`, `\r\n` (no trailing empty line). -/
def splitlines (s : Str) : List Str := splitlinesGo s []

/-- `line.lower().startswith("score")`. -/
def startsWithScore (l : Str) : Bool :=
  (strL "score").isPrefixOf (l.map lowerAscii)

/-- `"".join(c for c in line if c.isdigit())` (ASCII decimal digits). -/
def digitsOf (l : Str) : Str := l.filter Char.isDigit

/-- `int(digits)` for a string of decimal digits. -/
def parseIntDigits (ds : Str) : Int :=
  ds.foldl (fun acc c => 10 * acc + Int.ofNat (c.toNat - 48)) 0

/-- The score-extraction loop of the parser: scan lines, and the first
line whose lower-casing starts with `"score"` decides the score — the
concatenation of all its decimal digits, or 0 if it has none; with no
such line the score stays 0. -/
def findScore : List Str → Int
  | [] => 0
  | l :: rest =>
    if startsWithScore l then
      if digitsOf l = [] then 0 else parseIntDigits (digitsOf l)
    else findScore rest

/-- The separator `"Job "` used by `content.split("Job ")`. -/
def jobSep : Str := ['J', 'o', 'b', ' ']

/-- Fuelled scanner implementing Python `content.split("Job ")`:
leftmost non-overlapping occurrences of the separator.  The fuel is
always at least the length of the remaining text, so the fuel-exhausted
arm is never taken when called through `splitJob`. -/
def splitJobGoF : Nat → Str → Str → List Str
  | 0, s, acc => [acc.reverse ++ s]
  | fuel + 1, s, acc =>
    match s with
    | [] => [acc.reverse]
    | c :: rest =>
      if jobSep <+: (c :: rest) then
        acc.reverse :: splitJobGoF fuel (List.drop 3 rest) []
      else splitJobGoF fuel rest (c :: acc)

/-- Python `s.split("Job ")`. -/
def splitJob (s : Str) : List Str := splitJobGoF s.length s []

/-- One parsed block (already stripped, non-empty):
`{"score": findScore(lines), "analysis_text": "Job " + block}`. -/
def parseBlock (b : Str) : ScoreRecord :=
  { score := findScore (splitlines b), analysis_text := jobSep ++ b }

/-- The response-parsing section of `score_all_jobs_against_resume`
(lines 232-263): strip the content, split on `"Job "`, strip each block,
skip empty blocks, and build one record per remaining block in order. -/
def parse_gpt_response (raw : Str) : List ScoreRecord :=
  (splitJob (pyStrip raw)).filterMap fun blk =>
    if pyStrip blk = [] then none else some (parseBlock (pyStrip blk))

/-- Outcome of one attempt at the text-generation collaborator: a
response text, or a raised exception with its stringified message. -/
inductive Attempt where
  | success (text : Str)
  | failure (err : Str)
deriving DecidableEq

/-- `max_gpt_retries = 2` in `app.py`. -/
def max_gpt_retries : Nat := 2

/-- The fixed rate-limit fallback record built inside the retry loop. -/
def rateLimitRecord : ScoreRecord :=
  { score := 0
    analysis_text :=
      strL "Rate limit reached while scoring this job. Please try running the job search again after some time." }

/-- The generic fallback record of the post-loop `response is None` branch. -/
def genericRecord : ScoreRecord :=
  { score := 0
    analysis_text := strL "Could not get AI-based scoring due to an internal error." }

/-- How the retry loop of `score_all_jobs_against_resume` exits, with
the number of collaborator calls made. -/
inductive LoopExit where
  | gotResponse (text : Str) (calls : Nat)
  | returned (records : List ScoreRecord) (calls : Nat)
  | raisedErr (err : Str) (calls : Nat)
  | fellThrough (calls : Nat)
deriving DecidableEq

/-- The body of `for attempt in range(max_gpt_retries)`, structurally
recursive on the number of remaining attempts.  At state
`(remaining + 1, i)` the current attempt index is `i` and
`attempt == max_gpt_retries - 1` holds exactly when `remaining = 0`.
On success the loop breaks with the response; on a rate-limit-classified
error it either returns the fallback list (last attempt) or sleeps and
retries; any other error is re-raised. -/
def runAttemptsAux (outcomes : Nat → Attempt) (fallback : List ScoreRecord) :
    Nat → Nat → LoopExit
  | 0, i => LoopExit.fellThrough i
  | remaining + 1, i =>
    match outcomes i with
    | Attempt.success t => LoopExit.gotResponse t (i + 1)
    | Attempt.failure e =>
      if isRateLimitMsg e then
        if remaining = 0 then LoopExit.returned fallback (i + 1)
        else runAttemptsAux outcomes fallback remaining (i + 1)
      else LoopExit.raisedErr e (i + 1)

/-- The whole retry loop, started at attempt 0 with the full budget. -/
def runAttempts (outcomes : Nat → Attempt) (jobs : List Job) : LoopExit :=
  runAttemptsAux outcomes (jobs.map fun _ => rateLimitRecord) max_gpt_retries 0

/-- Whether the loop fell through with `response` still `None`. -/
def isFellThrough : LoopExit → Bool
  | LoopExit.fellThrough _ => true
  | _ => false

/-- Result of `score_all_jobs_against_resume`: a returned list, or a
propagated (re-raised) exception. -/
inductive ScoreResult where
  | ok (records : List ScoreRecord)
  | raised (err : Str)
deriving DecidableEq

/-- Decimal rendering of a job's 1-based ordinal. -/
def natToStr (n : Nat) : Str := (toString n).data

/-- One job block of the prompt (the f-string at lines 151-157). -/
def jobBlock (i : Nat) (job : Job) : Str :=
  strL "\nJob " ++ natToStr i ++ strL ":\nTitle: " ++ job.job_title ++
    strL "\nCompany: " ++ job.employer_name ++
    strL "\nLocation: " ++ pyOr job.job_city (pyOr job.job_country []) ++
    strL "\nDescription: " ++ compress_text job.job_description 800 ++ strL "\n"

/-- `enumerate(jobs, start=1)` over the block builder. -/
def job_blocks_from (i : Nat) : List Job → List Str
  | [] => []
  | j :: rest => jobBlock i j :: job_blocks_from (i + 1) rest

/-- The `user_prompt` f-string of `score_all_jobs_against_resume`
(lines 161-176); consumed only by the external collaborator. -/
def build_user_prompt (resume_text : Str) (jobs : List Job) : Str :=
  strL "\nCandidate Resume:\n" ++ compress_text resume_text 2000 ++
    strL "\n\nBelow are multiple jobs. Evaluate each independently.\n\nFor EACH job, return in EXACT format (no extra commentary outside this):\n\nJob <number>\nScore: <0-100>\nReason: <2 lines>\nMessage: <LinkedIn DM>\n\nNow here are the jobs:\n" ++
    List.intercalate (strL "\n") (job_blocks_from 1 jobs) ++ strL "\n"

/-- `score_all_jobs_against_resume(resume_text, jobs)` from `app.py`,
with the collaborator abstracted as the per-attempt `outcomes` function.
The second component counts collaborator invocations (0 when the batch
is empty: the early return precedes prompt building and the loop). -/
def score_all_jobs_against_resume (resume_text : Str) (jobs : List Job)
    (outcomes : Nat → Attempt) : ScoreResult × Nat :=
  if jobs = [] then (ScoreResult.ok [], 0)
  else
    let _user_prompt := build_user_prompt resume_text jobs
    match runAttempts outcomes jobs with
    | LoopExit.gotResponse t n => (ScoreResult.ok (parse_gpt_response t), n)
    | LoopExit.returned recs n => (ScoreResult.ok recs, n)
    | LoopExit.raisedErr e n => (ScoreResult.raised e, n)
    | LoopExit.fellThrough n => (ScoreResult.ok (jobs.map fun _ => genericRecord), n)

/-- The `max_jobs` computation of `index` (lines 280-285): the form
value parsed as an int (`None` models both a missing field and a
`ValueError`, defaulting to 5), then `max(1, min(max_jobs, 3))`. -/
def clampMaxJobs (formVal : Option Int) : Int :=
  let m := formVal.getD 5
  max 1 (min m 3)

/-- `limited_jobs = raw_jobs[:max_jobs]` (line 312); the clamp keeps the
bound at least 1, so the slice is an ordinary prefix. -/
def limited_jobs (raw_jobs : List Job) (formVal : Option Int) : List Job :=
  raw_jobs.take (clampMaxJobs formVal).toNat

/-- One entry of `scored_jobs` as assembled in `index`. -/
structure DisplayJob where
  title : Str
  company : Str
  location : Str
  apply_link : Str
  score : Int
  analysis_text : Str
deriving DecidableEq

/-- The per-job fallback entry of the length-mismatch branch (lines 320-335). -/
def fallbackDisplay (job : Job) : DisplayJob :=
  { title := job.job_title
    company := job.employer_name
    location := pyOr job.job_city (pyOr job.job_country [])
    apply_link := pyOr job.job_apply_link (pyOr job.job_google_link [])
    score := 0
    analysis_text := strL "Could not get AI-based scoring for this job due to a parsing issue." }

/-- The per-job merged entry of the zip branch (lines 338-353). -/
def mergeDisplay (job : Job) (m : ScoreRecord) : DisplayJob :=
  { title := job.job_title
    company := job.employer_name
    location := pyOr job.job_city (pyOr job.job_country [])
    apply_link := pyOr job.job_apply_link (pyOr job.job_google_link [])
    score := m.score
    analysis_text := m.analysis_text }

/-- The caller-side reconciliation of `index` (lines 317-353):
`if not ai_results or len(ai_results) != len(limited_jobs)` substitute
one fallback entry per job, else zip jobs with results positionally. -/
def reconcileIndex (limited : List Job) (ai : List ScoreRecord) : List DisplayJob :=
  if ai = [] ∨ ai.length ≠ limited.length then limited.map fallbackDisplay
  else (limited.zip ai).map fun p => mergeDisplay p.1 p.2

/-- What the route produces from the scoring step: the scored-jobs list,
or (when the scoring call raises) the caught-exception error page. -/
inductive IndexResult where
  | page (jobs : List DisplayJob)
  | errorPage (err : Str)
deriving DecidableEq

/-- The scoring-and-reconciliation slice of `index` (lines 315-353):
call `score_all_jobs_against_resume` on the limited batch and reconcile;
a raised exception is caught by the route's outer `try` as an error page. -/
def indexScoreStep (resume : Str) (limited : List Job)
    (outcomes : Nat → Attempt) : IndexResult :=
  match (score_all_jobs_against_resume resume limited outcomes).1 with
  | ScoreResult.ok ai => IndexResult.page (reconcileIndex limited ai)
  | ScoreResult.raised e => IndexResult.errorPage e

/-- The inductive content of `buildContent`: a well-formed collaborator
response is the concatenation `"Job " ++ b₁ ++ "Job " ++ b₂ ++ ...` of
ordinal-marked segments. -/
def buildContent (bodies : List Str) : Str :=
  bodies.foldr (fun b acc => jobSep ++ (b ++ acc)) []

/-- A concrete job record used to instantiate proved theorems. -/
def sampleJob : Job :=
  { job_title := strL "Data Engineer"
    employer_name := strL "Acme"
    job_city := strL "Pune"
    job_country := strL "India"
    job_description := strL "Build pipelines."
    job_apply_link := strL "https://example.com/a"
    job_google_link := [] }

/-- Unfolding of one loop iteration (structural step on the remaining
attempt budget). -/
theorem runAttemptsAux_succ (outcomes : Nat → Attempt) (fb : List ScoreRecord)
    (remaining i : Nat) :
    runAttemptsAux outcomes fb (remaining + 1) i =
      (match outcomes i with
       | Attempt.success t => LoopExit.gotResponse t (i + 1)
       | Attempt.failure e =>
         if isRateLimitMsg e then
           if remaining = 0 then LoopExit.returned fb (i + 1)
           else runAttemptsAux outcomes fb remaining (i + 1)
         else LoopExit.raisedErr e (i + 1)) := rfl

/-- The accumulating fold of `int(digits)` stays non-negative. -/
theorem foldl_digits_nonneg (ds : Str) : ∀ acc : Int, 0 ≤ acc →
    0 ≤ ds.foldl (fun a c => 10 * a + Int.ofNat (c.toNat - 48)) acc := by
  induction ds with
  | nil => intro acc h; simpa using h
  | cons c ds ih =>
    intro acc h
    simp only [List.foldl_cons]
    have hb : 0 ≤ Int.ofNat (c.toNat - 48) := Int.ofNat_nonneg _
    exact ih _ (by omega)

/-- `int` of a digit string is non-negative. -/
theorem parseIntDigits_nonneg (ds : Str) : 0 ≤ parseIntDigits ds :=
  foldl_digits_nonneg ds 0 le_rfl

/-- Every score the line scanner can produce is non-negative. -/
theorem findScore_nonneg : ∀ ls : List Str, 0 ≤ findScore ls
  | [] => le_rfl
  | l :: rest => by
    by_cases h : startsWithScore l
    · by_cases hd : digitsOf l = []
      · simp [findScore, h, hd]
      · simpa [findScore, h, hd] using parseIntDigits_nonneg (digitsOf l)
    · simpa [findScore, h] using findScore_nonneg rest

/-- Every record emitted by the response parser has a non-negative score. -/
theorem parse_nonneg (raw : Str) (r : ScoreRecord)
    (hr : r ∈ parse_gpt_response raw) : 0 ≤ r.score := by
  simp only [parse_gpt_response, List.mem_filterMap] at hr
  obtain ⟨blk, _, hsome⟩ := hr
  by_cases hb : pyStrip blk = []
  · simp [hb] at hsome
  · rw [if_neg hb] at hsome
    obtain rfl : parseBlock (pyStrip blk) = r := Option.some.inj hsome
    exact findScore_nonneg _

/-- C6: for every resume text, calling the batch scorer with an empty job
list returns the empty list as a normal (non-error) result with zero
collaborator invocations — the generation collaborator is never
contacted. -/
theorem empty_batch : ∀ (resume : Str) (outcomes : Nat → Attempt),
    score_all_jobs_against_resume resume [] outcomes = (ScoreResult.ok [], 0) := by
  intro resume outcomes
  simp [score_all_jobs_against_resume]

/-- C9: the form value `max_jobs` (non-integer input defaulting to 5)
is clamped to `max(1, min(max_jobs, 3))`, so the clamp lies in `[1, 3]`
and the batch passed to scoring never holds more than 3 jobs, whatever
the job source returned and whatever the form requested. -/
theorem batch_size_cap : ∀ (formVal : Option Int) (raw_jobs : List Job),
    1 ≤ clampMaxJobs formVal ∧ clampMaxJobs formVal ≤ 3 ∧
      (limited_jobs raw_jobs formVal).length ≤ 3 ∧ clampMaxJobs none = 3 := by
  intro fv raw
  have h3 : clampMaxJobs fv ≤ 3 := max_le (by omega) (min_le_right _ 3)
  have h1 : 1 ≤ clampMaxJobs fv := le_max_left 1 _
  refine ⟨h1, h3, ?_, by decide⟩
  simp only [limited_jobs, List.length_take]
  omega

/-- Stripping an all-`'a'` string changes nothing (only the first and
last characters are inspected by `dropWhile`). -/
theorem pyStrip_replicate_a (n : Nat) :
    pyStrip (List.replicate n 'a') = List.replicate n 'a' := by
  have hd : ∀ m : Nat, List.dropWhile isPySpace (List.replicate m 'a') = List.replicate m 'a' := by
    intro m
    cases m with
    | zero => rfl
    | succ m =>
      have ha : isPySpace 'a' = false := by decide
      rw [List.replicate_succ, List.dropWhile_cons, ha]
      simp
  unfold pyStrip
  rw [hd, List.reverse_replicate, hd, List.reverse_replicate]

/-- C7: `compress_text` strips, then on overflow keeps the first
`max_chars` characters and appends the 3-character marker `"..."`; the
result length is then exactly `max_chars + 3`; the empty input maps to
the empty string; and concretely `compress_text("a"*2000, 1500)` has
length 1503 and ends with the marker. -/
theorem truncation_spec :
    (∀ (text : Str) (m : Nat), text ≠ [] → m < (pyStrip text).length →
        compress_text text m = (pyStrip text).take m ++ strL "..." ∧
          (compress_text text m).length = m + 3) ∧
    (∀ m : Nat, compress_text [] m = []) ∧
    (compress_text (List.replicate 2000 'a') 1500).length = 1503 ∧
    (∃ pre, compress_text (List.replicate 2000 'a') 1500 = pre ++ strL "...") := by
  have hgen : ∀ (text : Str) (m : Nat), text ≠ [] → m < (pyStrip text).length →
      compress_text text m = (pyStrip text).take m ++ strL "..." ∧
        (compress_text text m).length = m + 3 := by
    intro text m hne hlt
    have heq : compress_text text m = (pyStrip text).take m ++ strL "..." := by
      simp [compress_text, hne, hlt]
    refine ⟨heq, ?_⟩
    rw [heq, List.length_append, List.length_take]
    have hdots : (strL "...").length = 3 := rfl
    omega
  have hrep : pyStrip (List.replicate 2000 'a') = List.replicate 2000 'a' :=
    pyStrip_replicate_a 2000
  have hlt : 1500 < (pyStrip (List.replicate 2000 'a')).length := by
    rw [hrep, List.length_replicate]; omega
  have hne : (List.replicate 2000 'a' : Str) ≠ [] := by
    have hpos : 0 < (List.replicate 2000 'a' : Str).length := by
      rw [List.length_replicate]; omega
    exact List.length_pos.mp hpos
  obtain ⟨heq, hlen⟩ := hgen (List.replicate 2000 'a') 1500 hne hlt
  refine ⟨hgen, fun m => by simp [compress_text], by rw [hlen], ⟨(pyStrip (List.replicate 2000 'a')).take 1500, heq⟩⟩

/-- C7 witness: the general truncation property instantiated at a
concrete 8-character input with budget 5. -/
theorem truncation_spec_witness :
    compress_text (strL "abcdefgh") 5 = (pyStrip (strL "abcdefgh")).take 5 ++ strL "..." ∧
      (compress_text (strL "abcdefgh") 5).length = 5 + 3 :=
  truncation_spec.1 (strL "abcdefgh") 5 (by decide) (by decide)

/-- C8: under every per-attempt collaborator outcome, the retry loop of
`score_all_jobs_against_resume` exits by breaking with a response, by
returning the rate-limit fallback list, or by re-raising — it never
falls through with `response` still `None`, so the post-loop
`response is None` branch (the generic internal-error fallback) is
unreachable. -/
theorem no_generic_fallback_reachable :
    ∀ (outcomes : Nat → Attempt) (jobs : List Job),
      isFellThrough (runAttempts outcomes jobs) = false := by
  intro outcomes jobs
  unfold runAttempts max_gpt_retries
  rw [runAttemptsAux_succ]
  cases h0 : outcomes 0 with
  | success t => simp [isFellThrough]
  | failure e =>
    by_cases hr : isRateLimitMsg e
    · cases h1 : outcomes 1 with
      | success t => simp [hr, h1, runAttemptsAux_succ, isFellThrough]
      | failure e2 =>
        by_cases hr2 : isRateLimitMsg e2 <;>
          simp [hr, h1, hr2, runAttemptsAux_succ, isFellThrough]
    · simp [hr, isFellThrough]

/-- C8 delivers one of three positive exits; this inversion lemma pins
the `returned` exit to the fallback list the loop was started with. -/
theorem runAttempts_returned (outcomes : Nat → Attempt) (jobs : List Job)
    (recs : List ScoreRecord) (n : Nat)
    (h : runAttempts outcomes jobs = LoopExit.returned recs n) :
    recs = jobs.map fun _ => rateLimitRecord := by
  unfold runAttempts max_gpt_retries at h
  cases ho : outcomes 0 with
  | success t => simp [runAttemptsAux_succ, ho] at h
  | failure e =>
    by_cases hr : isRateLimitMsg e
    · cases h1 : outcomes 1 with
      | success t => simp [runAttemptsAux_succ, ho, hr, h1] at h
      | failure e2 =>
        by_cases hr2 : isRateLimitMsg e2
        · simp [runAttemptsAux_succ, ho, hr, h1, hr2] at h
          simpa using h.1.symm
        · simp [runAttemptsAux_succ, ho, hr, h1, hr2] at h
    · simp [runAttemptsAux_succ, ho, hr] at h

/-- Membership in a constant-valued map pins the element. -/
theorem mem_const_map {α β : Type} (b : β) (l : List α) (x : β)
    (hx : x ∈ l.map fun _ => b) : x = b := by
  rcases List.mem_map.mp hx with ⟨a, -, ha⟩
  exact ha.symm

/-- C10: every record list that `score_all_jobs_against_resume` returns
(rather than raises) holds only non-negative scores: both fallback paths
write score 0, and a parsed score is either the default 0 or the `int`
of a digit string, never negative. -/
theorem scores_nonneg (resume : Str) (jobs : List Job) (outcomes : Nat → Attempt)
    (recs : List ScoreRecord)
    (hok : (score_all_jobs_against_resume resume jobs outcomes).1 = ScoreResult.ok recs) :
    ∀ r ∈ recs, 0 ≤ r.score := by
  intro r hr
  by_cases hj : jobs = []
  · subst hj
    simp [score_all_jobs_against_resume] at hok
    subst hok
    simp at hr
  · cases hL : runAttempts outcomes jobs with
    | gotResponse t n =>
      simp [score_all_jobs_against_resume, hj, hL] at hok
      rw [← hok] at hr
      exact parse_nonneg t r hr
    | returned recs' n =>
      have hfb : recs' = jobs.map fun _ => rateLimitRecord :=
        runAttempts_returned outcomes jobs recs' n hL
      simp [score_all_jobs_against_resume, hj, hL] at hok
      have hmem : r ∈ recs' := by
        exact hok ▸ hr
      have hmem2 : r ∈ jobs.map fun _ => rateLimitRecord := by
        rw [← hfb]; exact hmem
      rw [mem_const_map rateLimitRecord jobs r hmem2]
      decide
    | raisedErr e n =>
      simp [score_all_jobs_against_resume, hj, hL] at hok
    | fellThrough n =>
      simp [score_all_jobs_against_resume, hj, hL] at hok
      have hmem : r ∈ List.replicate jobs.length genericRecord := by
        exact hok ▸ hr
      rw [List.eq_of_mem_replicate hmem]
      decide

/-- C10 witness: the theorem applied to the concrete run where the
collaborator answers `"Job 1\nScore: 7"` for a one-job batch. -/
theorem scores_nonneg_witness :
    0 ≤ (ScoreRecord.mk 7 (strL "Job 1\nScore: 7")).score :=
  scores_nonneg (strL "resume") [sampleJob]
    (fun _ => Attempt.success (strL "Job 1\nScore: 7"))
    [ScoreRecord.mk 7 (strL "Job 1\nScore: 7")] (by decide)
    (ScoreRecord.mk 7 (strL "Job 1\nScore: 7")) (by decide)

/-- C3: if every attempt raises a rate-limit-classified error, the
scorer returns (does not raise) after exactly `max_gpt_retries`
collaborator calls, producing one fallback record per job — score 0 and
the quota message — built directly in the loop, bypassing the parser. -/
theorem degrade_on_rate_limit (resume : Str) (jobs : List Job) (outcomes : Nat → Attempt)
    (hne : jobs ≠ [])
    (hrl : ∀ i, i < max_gpt_retries →
      ∃ e, outcomes i = Attempt.failure e ∧ isRateLimitMsg e = true) :
    score_all_jobs_against_resume resume jobs outcomes =
      (ScoreResult.ok (jobs.map fun _ => rateLimitRecord), max_gpt_retries) ∧
      (jobs.map fun _ => rateLimitRecord).length = jobs.length ∧
      ∀ r ∈ jobs.map (fun _ => rateLimitRecord),
        r.score = 0 ∧ r.analysis_text = rateLimitRecord.analysis_text := by
  obtain ⟨e0, h0, hr0⟩ := hrl 0 (by decide)
  obtain ⟨e1, h1, hr1⟩ := hrl 1 (by decide)
  have hloop : runAttempts outcomes jobs =
      LoopExit.returned (jobs.map fun _ => rateLimitRecord) 2 := by
    unfold runAttempts max_gpt_retries
    simp [runAttemptsAux_succ, h0, hr0, h1, hr1]
  refine ⟨?_, by simp, ?_⟩
  · simp [score_all_jobs_against_resume, hne, hloop, max_gpt_retries]
  · intro r hr
    rw [mem_const_map rateLimitRecord jobs r hr]
    exact ⟨rfl, rfl⟩

/-- C3 witness: a one-job batch with the collaborator failing with a
rate-limit message on both attempts. -/
theorem degrade_on_rate_limit_witness :
    score_all_jobs_against_resume (strL "resume") [sampleJob]
        (fun _ => Attempt.failure (strL "Rate limit exceeded, try later")) =
      (ScoreResult.ok ([sampleJob].map fun _ => rateLimitRecord), max_gpt_retries) :=
  (degrade_on_rate_limit (strL "resume") [sampleJob]
    (fun _ => Attempt.failure (strL "Rate limit exceeded, try later"))
    (by decide)
    (fun _ _ => ⟨strL "Rate limit exceeded, try later", rfl, by decide⟩)).1

/-- C4: a first-attempt failure that the classifier does not recognize
as rate limit is re-raised at once: the scorer propagates the error
after exactly one collaborator call, with no second attempt and no
fallback records. -/
theorem fatal_propagation (resume : Str) (jobs : List Job) (outcomes : Nat → Attempt)
    (e : Str) (hne : jobs ≠ []) (h0 : outcomes 0 = Attempt.failure e)
    (hfatal : isRateLimitMsg e = false) :
    score_all_jobs_against_resume resume jobs outcomes = (ScoreResult.raised e, 1) := by
  have hloop : runAttempts outcomes jobs = LoopExit.raisedErr e 1 := by
    unfold runAttempts max_gpt_retries
    simp [runAttemptsAux_succ, h0, hfatal]
  simp [score_all_jobs_against_resume, hne, hloop]

/-- C4 witness: an auth-style failure on the first attempt propagates
after exactly one call. -/
theorem fatal_propagation_witness :
    score_all_jobs_against_resume (strL "resume") [sampleJob]
        (fun _ => Attempt.failure (strL "Error code: 401 - invalid api key")) =
      (ScoreResult.raised (strL "Error code: 401 - invalid api key"), 1) :=
  fatal_propagation (strL "resume") [sampleJob]
    (fun _ => Attempt.failure (strL "Error code: 401 - invalid api key"))
    (strL "Error code: 401 - invalid api key") (by decide) rfl (by decide)

set_option maxRecDepth 8192 in
/-- C2 counterexample: the parser does not keep scores within 100 — the
score line digits are concatenated, so `"Score: 9 out of 10"` parses to
910, violating `score ∈ [0, 100]` as stated. -/
theorem score_upper_bound_counterexample :
    ¬ (∀ r ∈ parse_gpt_response (strL "Job 1\nScore: 9 out of 10"),
        0 ≤ r.score ∧ r.score ≤ 100) := by
  decide

/-- C2 (amended): every parsed score is non-negative; a block with no
recognized score line parses to 0, and so does one whose first score
line has no decimal digit.  The upper bound 100 is not enforced. -/
theorem score_bounds_amended :
    (∀ (raw : Str) (r : ScoreRecord), r ∈ parse_gpt_response raw → 0 ≤ r.score) ∧
    (∀ ls : List Str, (∀ l ∈ ls, startsWithScore l = false) → findScore ls = 0) ∧
    (∀ (l : Str) (rest : List Str), startsWithScore l = true → digitsOf l = [] →
      findScore (l :: rest) = 0) := by
  refine ⟨fun raw r hr => parse_nonneg raw r hr, ?_, ?_⟩
  · intro ls h
    induction ls with
    | nil => rfl
    | cons l rest ih =>
      have hl : startsWithScore l = false := h l (by simp)
      simp only [findScore, hl, Bool.false_eq_true, if_false]
      exact ih fun x hx => h x (by simp [hx])
  · intro l rest hs hd
    simp [findScore, hs, hd]

set_option maxRecDepth 8192 in
/-- C2 witness: the amended bounds at concrete inputs — a parsed record
with score 910 is non-negative, a block with no score line parses to 0,
and a digitless score line parses to 0. -/
theorem score_bounds_amended_witness :
    0 ≤ (ScoreRecord.mk 910 (strL "Job 1\nScore: 9 out of 10")).score ∧
      findScore [strL "Reason: fine"] = 0 ∧
      findScore [strL "Score: none", strL "next"] = 0 :=
  ⟨score_bounds_amended.1 (strL "Job 1\nScore: 9 out of 10")
      (ScoreRecord.mk 910 (strL "Job 1\nScore: 9 out of 10")) (by decide),
    score_bounds_amended.2.1 [strL "Reason: fine"] (by decide),
    score_bounds_amended.2.2 (strL "Score: none") [strL "next"] (by decide) (by decide)⟩

/-- The reconciliation of `index` always yields one display entry per
input job, whatever the scorer produced. -/
theorem reconcileIndex_length (limited : List Job) (ai : List ScoreRecord) :
    (reconcileIndex limited ai).length = limited.length := by
  unfold reconcileIndex
  split
  · simp
  · next h =>
    push_neg at h
    simp [List.length_zip, h.2]

/-- C1: for every non-empty batch and every collaborator behavior, when
the scoring step of `index` renders a page (i.e. the scorer did not
raise), the reconciled list has exactly one entry per input job —
malformed, truncated or empty response text and total rate-limited
failure all included. -/
theorem length_invariant_pipeline (resume : Str) (jobs : List Job)
    (outcomes : Nat → Attempt) (_hne : jobs ≠ []) (res : List DisplayJob)
    (hpage : indexScoreStep resume jobs outcomes = IndexResult.page res) :
    res.length = jobs.length := by
  unfold indexScoreStep at hpage
  cases hsc : (score_all_jobs_against_resume resume jobs outcomes).1 with
  | ok ai =>
    rw [hsc] at hpage
    simp at hpage
    rw [← hpage]
    exact reconcileIndex_length jobs ai
  | raised e =>
    rw [hsc] at hpage
    simp at hpage

set_option maxRecDepth 8192 in
/-- C1 witness: a one-job batch with an empty collaborator response —
the parser yields no records, the mismatch branch substitutes the
fallback entry, and lengths agree. -/
theorem length_invariant_pipeline_witness :
    ([fallbackDisplay sampleJob] : List DisplayJob).length = [sampleJob].length :=
  length_invariant_pipeline (strL "resume") [sampleJob]
    (fun _ => Attempt.success []) (by decide) [fallbackDisplay sampleJob] (by decide)

/-- No occurrence of `"Job "` can start strictly inside the text that
precedes an inserted separator: if the separator is a prefix of
`s ++ "Job " ++ t` then either `s` is empty or the separator already
starts `s` (the separator cannot straddle the seam, because its later
characters differ from its first). -/
theorem sep_prefix_split (s t : Str) (h : jobSep <+: (s ++ (jobSep ++ t))) :
    s = [] ∨ jobSep <+: s := by
  obtain ⟨u, hu⟩ := h
  rcases s with _ | ⟨x1, _ | ⟨x2, _ | ⟨x3, _ | ⟨x4, s'⟩⟩⟩⟩
  · exact Or.inl rfl
  · exfalso
    simp only [jobSep, List.cons_append, List.nil_append, List.cons.injEq] at hu
    exact absurd hu.2.1 (by decide)
  · exfalso
    simp only [jobSep, List.cons_append, List.nil_append, List.cons.injEq] at hu
    exact absurd hu.2.2.1 (by decide)
  · exfalso
    simp only [jobSep, List.cons_append, List.nil_append, List.cons.injEq] at hu
    exact absurd hu.2.2.2.1 (by decide)
  · right
    simp only [jobSep, List.cons_append, List.nil_append, List.cons.injEq] at hu
    obtain ⟨h1, h2, h3, h4, -⟩ := hu
    subst h1; subst h2; subst h3; subst h4
    exact ⟨s', rfl⟩

/-- The scanner ignores surplus fuel: any two sufficient fuel budgets
give the same result. -/
theorem splitJobGoF_fuel (f1 : Nat) : ∀ (f2 : Nat) (s acc : Str),
    s.length ≤ f1 → s.length ≤ f2 → splitJobGoF f1 s acc = splitJobGoF f2 s acc := by
  induction f1 with
  | zero =>
    intro f2 s acc h1 h2
    have hs : s = [] := List.length_eq_zero.mp (Nat.le_zero.mp h1)
    subst hs
    cases f2 <;> simp [splitJobGoF]
  | succ f1 ih =>
    intro f2 s acc h1 h2
    cases s with
    | nil => cases f2 <;> simp [splitJobGoF]
    | cons c rest =>
      cases f2 with
      | zero => simp at h2
      | succ f2 =>
        simp only [splitJobGoF]
        by_cases hp : jobSep <+: (c :: rest)
        · rw [if_pos hp, if_pos hp]
          have hd : (List.drop 3 rest).length = rest.length - 3 := List.length_drop 3 rest
          have hr1 : (List.drop 3 rest).length ≤ f1 := by
            simp only [List.length_cons] at h1; omega
          have hr2 : (List.drop 3 rest).length ≤ f2 := by
            simp only [List.length_cons] at h2; omega
          rw [ih f2 (List.drop 3 rest) [] hr1 hr2]
        · rw [if_neg hp, if_neg hp]
          exact ih f2 rest (c :: acc)
            (by simp only [List.length_cons] at h1; omega)
            (by simp only [List.length_cons] at h2; omega)

/-- Scanning a text with no separator occurrence accumulates it whole. -/
theorem splitJobGoF_clean (b : Str) : ∀ (fuel : Nat) (acc : Str),
    b.length ≤ fuel → containsSub jobSep b = false →
    splitJobGoF fuel b acc = [acc.reverse ++ b] := by
  induction b with
  | nil =>
    intro fuel acc _ _
    cases fuel <;> simp [splitJobGoF]
  | cons c rest ih =>
    intro fuel acc h hc
    cases fuel with
    | zero => simp at h
    | succ fuel =>
      have hc2 : ¬ (jobSep <+: (c :: rest)) ∧ containsSub jobSep rest = false := by
        simp only [containsSub, Bool.or_eq_false_iff, decide_eq_false_iff_not] at hc
        exact hc
      simp only [splitJobGoF]
      rw [if_neg hc2.1,
        ih fuel (c :: acc) (by simp only [List.length_cons] at h; omega) hc2.2]
      simp

/-- Scanning `b ++ "Job " ++ rest` with `b` separator-free emits
`acc.reverse ++ b` and continues right after the separator. -/
theorem splitJobGoF_scan (b : Str) : ∀ (fuel : Nat) (rest acc : Str),
    (b ++ (jobSep ++ rest)).length ≤ fuel → containsSub jobSep b = false →
    splitJobGoF fuel (b ++ (jobSep ++ rest)) acc =
      (acc.reverse ++ b) :: splitJobGoF rest.length rest [] := by
  induction b with
  | nil =>
    intro fuel rest acc h _
    cases fuel with
    | zero => simp [jobSep] at h
    | succ fuel =>
      have hlen : rest.length ≤ fuel := by
        simp only [List.nil_append, List.length_append, jobSep, List.length_cons] at h
        omega
      simp only [List.nil_append]
      show splitJobGoF (fuel + 1) ('J' :: ('o' :: 'b' :: ' ' :: rest)) acc = _
      simp only [splitJobGoF]
      rw [if_pos ⟨rest, rfl⟩]
      have hd : List.drop 3 ('o' :: 'b' :: ' ' :: rest) = rest := rfl
      rw [hd, splitJobGoF_fuel fuel rest.length rest [] hlen le_rfl]
      simp
  | cons c b' ih =>
    intro fuel rest acc h hc
    cases fuel with
    | zero => simp at h
    | succ fuel =>
      have hc2 : ¬ (jobSep <+: (c :: b')) ∧ containsSub jobSep b' = false := by
        simp only [containsSub, Bool.or_eq_false_iff, decide_eq_false_iff_not] at hc
        exact hc
      have hnp : ¬ (jobSep <+: (c :: (b' ++ (jobSep ++ rest)))) := by
        intro hp
        have hsplit := sep_prefix_split (c :: b') rest
          (by simpa [List.cons_append] using hp)
        rcases hsplit with h0 | hpre
        · exact absurd h0 (by simp)
        · exact hc2.1 hpre
      simp only [List.cons_append]
      simp only [splitJobGoF]
      rw [if_neg hnp,
        ih fuel rest (c :: acc)
          (by simp only [List.cons_append, List.length_cons] at h; omega) hc2.2]
      simp

/-- Scanning a separator-free head followed by further separator-marked
bodies yields exactly the bodies in order. -/
theorem splitJobGoF_bodies : ∀ (bs : List Str) (b : Str) (fuel : Nat),
    (b ++ buildContent bs).length ≤ fuel →
    containsSub jobSep b = false →
    (∀ x ∈ bs, containsSub jobSep x = false) →
    splitJobGoF fuel (b ++ buildContent bs) [] = b :: bs := by
  intro bs
  induction bs with
  | nil =>
    intro b fuel h hb _
    simp only [buildContent, List.foldr_nil, List.append_nil] at h ⊢
    rw [splitJobGoF_clean b fuel [] h hb]
    simp
  | cons b2 bs ih =>
    intro b fuel h hb hall
    have hby : buildContent (b2 :: bs) = jobSep ++ (b2 ++ buildContent bs) := by
      simp [buildContent]
    rw [hby] at h ⊢
    rw [splitJobGoF_scan b fuel (b2 ++ buildContent bs) [] h hb]
    rw [ih b2 (b2 ++ buildContent bs).length le_rfl (hall b2 (by simp))
      (fun x hx => hall x (by simp [hx]))]
    simp

/-- Python `split("Job ")` of a well-formed assembled response: a
leading empty segment, then the bodies in order. -/
theorem splitJob_buildContent (bodies : List Str)
    (hall : ∀ x ∈ bodies, containsSub jobSep x = false) :
    splitJob (buildContent bodies) = [] :: bodies := by
  cases bodies with
  | nil => rfl
  | cons b bs =>
    have hby : buildContent (b :: bs) = jobSep ++ (b ++ buildContent bs) := by
      simp [buildContent]
    unfold splitJob
    rw [hby]
    have h4 : (jobSep ++ (b ++ buildContent bs)).length =
        ([] ++ (jobSep ++ (b ++ buildContent bs))).length := by simp
    rw [show (jobSep ++ (b ++ buildContent bs) : Str) =
        [] ++ (jobSep ++ (b ++ buildContent bs)) from (List.nil_append _).symm]
    rw [splitJobGoF_scan [] _ (b ++ buildContent bs) [] (by simp) rfl]
    rw [splitJobGoF_bodies bs b (b ++ buildContent bs).length le_rfl
      (hall b (by simp)) (fun x hx => hall x (by simp [hx]))]
    simp

/-- When no block strips to empty, the parser's filterMap is a plain
map in input order. -/
theorem filterMap_parse_all (l : List Str) (h : ∀ b ∈ l, pyStrip b ≠ []) :
    (l.filterMap fun blk =>
      if pyStrip blk = [] then none else some (parseBlock (pyStrip blk))) =
      l.map fun b => parseBlock (pyStrip b) := by
  induction l with
  | nil => rfl
  | cons b l ih =>
    rw [List.filterMap_cons_some (by rw [if_neg (h b (by simp))]),
      ih fun x hx => h x (by simp [hx]), List.map_cons]

/-- Parsing a well-formed assembled response produces exactly one record
per body, each built from its own (stripped) body, in occurrence order —
the parser never re-sorts. -/
theorem parse_gpt_buildContent (bodies : List Str)
    (hclean : ∀ b ∈ bodies, containsSub jobSep b = false)
    (hbne : ∀ b ∈ bodies, pyStrip b ≠ [])
    (hstrip : pyStrip (buildContent bodies) = buildContent bodies) :
    parse_gpt_response (buildContent bodies) =
      bodies.map fun b => parseBlock (pyStrip b) := by
  unfold parse_gpt_response
  rw [hstrip, splitJob_buildContent bodies hclean,
    List.filterMap_cons_none (by rfl), filterMap_parse_all bodies hbne]

/-- C5: for a well-formed response made of N ordinal-marked segments in
input order for an N-job batch, the parser emits the N records purely
positionally (record i from segment i, no re-sorting), and the merge in
`index` pairs record i with job i by position. -/
theorem positional_correlation (resume : Str) (jobs : List Job) (bodies : List Str)
    (outcomes : Nat → Attempt)
    (hclean : ∀ b ∈ bodies, containsSub jobSep b = false)
    (hbne : ∀ b ∈ bodies, pyStrip b ≠ [])
    (hstrip : pyStrip (buildContent bodies) = buildContent bodies)
    (hlen : bodies.length = jobs.length)
    (hjobs : jobs ≠ [])
    (hout : outcomes 0 = Attempt.success (buildContent bodies)) :
    parse_gpt_response (buildContent bodies) =
        (bodies.map fun b => parseBlock (pyStrip b)) ∧
      indexScoreStep resume jobs outcomes =
        IndexResult.page ((jobs.zip (bodies.map fun b => parseBlock (pyStrip b))).map
          fun p => mergeDisplay p.1 p.2) := by
  have hp := parse_gpt_buildContent bodies hclean hbne hstrip
  refine ⟨hp, ?_⟩
  have hloop : runAttempts outcomes jobs =
      LoopExit.gotResponse (buildContent bodies) 1 := by
    unfold runAttempts max_gpt_retries
    simp [runAttemptsAux_succ, hout]
  have hbody : bodies ≠ [] := by
    intro h0
    apply hjobs
    rw [h0] at hlen
    exact List.length_eq_zero.mp hlen.symm
  have hai : (bodies.map fun b => parseBlock (pyStrip b)) ≠ [] := by
    simpa using hbody
  have hailen : (bodies.map fun b => parseBlock (pyStrip b)).length = jobs.length := by
    simpa using hlen
  have hsc : (score_all_jobs_against_resume resume jobs outcomes).1 =
      ScoreResult.ok (bodies.map fun b => parseBlock (pyStrip b)) := by
    simp [score_all_jobs_against_resume, hjobs, hloop, hp]
  unfold indexScoreStep
  rw [hsc]
  show IndexResult.page
      (reconcileIndex jobs (bodies.map fun b => parseBlock (pyStrip b))) = _
  unfold reconcileIndex
  rw [if_neg (by push_neg; exact ⟨hai, hailen⟩)]

/-- Second concrete job for the C5 witness batch. -/
def sampleJob2 : Job :=
  { job_title := strL "ML Engineer"
    employer_name := strL "Globex"
    job_city := []
    job_country := strL "India"
    job_description := strL "Train models."
    job_apply_link := []
    job_google_link := strL "https://example.com/g" }

/-- Third concrete job for the C5 witness batch. -/
def sampleJob3 : Job :=
  { job_title := strL "Analyst"
    employer_name := strL "Initech"
    job_city := strL "Delhi"
    job_country := []
    job_description := strL "Analyze data."
    job_apply_link := strL "https://example.com/i"
    job_google_link := [] }

/-- The three-job batch of the C5 witness. -/
def demoJobs : List Job := [sampleJob, sampleJob2, sampleJob3]

/-- Three well-formed response segments in input order. -/
def demoBodies : List Str :=
  [strL "1\nScore: 85\nReason: strong match\nMessage: hi\n",
   strL "2\nScore: 40\nReason: partial match\nMessage: hello\n",
   strL "3\nScore: 10\nReason: weak match\nMessage: hey"]

/-- A collaborator that answers the assembled well-formed response. -/
def demoOutcomes : Nat → Attempt := fun _ => Attempt.success (buildContent demoBodies)

set_option maxRecDepth 100000 in
/-- C5 witness: the positional-correlation theorem applied to the
concrete three-segment response and three-job batch. -/
theorem positional_correlation_witness :
    parse_gpt_response (buildContent demoBodies) =
        (demoBodies.map fun b => parseBlock (pyStrip b)) ∧
      indexScoreStep (strL "resume") demoJobs demoOutcomes =
        IndexResult.page ((demoJobs.zip (demoBodies.map fun b => parseBlock (pyStrip b))).map
          fun p => mergeDisplay p.1 p.2) :=
  positional_correlation (strL "resume") demoJobs demoBodies demoOutcomes
    (by decide) (by decide) (by decide) (by decide) (by decide) rfl
